import Mathlib

/-
Verification development for the media-file ingestion and normalization
pipeline of the ta-scripts repository.  The definitions below are a shallow
embedding of `convert-media-files.py` and `validate-media-files.py`:
pure string/path computations are translated directly, and every external
interaction (ffprobe, ffmpeg, PIL, os.rename, os.remove) is modelled by an
explicit environment of outcome functions together with a trace of emitted
effects.  Python exceptions are modelled with `Except`; an uncaught
exception aborts the remainder of a batch, exactly as in the scripts.
-/

namespace TaScripts

/-- Python `str.endswith(suffix)`. -/
def strEndsWith (s suffix : String) : Bool :=
  decide (suffix.data.length ≤ s.data.length) &&
    (s.data.drop (s.data.length - suffix.data.length)) == suffix.data

/-- Python `str.startswith(p)`. -/
def strStartsWith (s p : String) : Bool :=
  s.data.take p.data.length == p.data

/-- Python `str.rstrip(chars)`: removes trailing characters that are members
of the character set `strip` (NOT a suffix removal). -/
def pyRstrip (s strip : String) : String :=
  String.mk ((s.data.reverse.dropWhile (fun c => strip.data.contains c)).reverse)

/-- Index of the last occurrence of `c` in `cs`, if any (Python `str.rfind`). -/
def rfindIdx : List Char → Char → Option Nat
  | [], _ => none
  | x :: xs, c =>
    match rfindIdx xs c with
    | some i => some (i + 1)
    | none => if x == c then some 0 else none

/-- Character-list core of Python `posixpath.splitext`: the extension starts at
the last dot, provided the dot comes after the last path separator and at
least one non-dot character precedes it within the base name. -/
def splitextList (cs : List Char) : List Char × List Char :=
  let sep : Int := match rfindIdx cs '/' with | some i => (i : Int) | none => -1
  let dot : Int := match rfindIdx cs '.' with | some i => (i : Int) | none => -1
  if sep < dot then
    let start := (sep + 1).toNat
    let d := dot.toNat
    if ((cs.drop start).take (d - start)).any (fun c => c != '.') then
      (cs.take d, cs.drop d)
    else (cs, [])
  else (cs, [])

/-- Python `os.path.splitext` on a POSIX path. -/
def splitext (s : String) : String × String :=
  (String.mk (splitextList s.data).1, String.mk (splitextList s.data).2)

/-- Python `os.path.join(root, name)` for two POSIX components. -/
def joinPath (root name : String) : String :=
  if strStartsWith name "/" then name
  else if root == "" then name
  else if strEndsWith root "/" then root ++ name
  else root ++ "/" ++ name

/-- Characters of the regex class `[a-zA-Z0-9_-]` used for video identifiers. -/
def isIdChar (c : Char) : Bool :=
  c.isAlpha || c.isDigit || c == '_' || c == '-'

/-- Attempt to match `([a-zA-Z0-9_-]{11})\x5d` right after an opening bracket:
exactly 11 identifier characters followed by a closing bracket. -/
def matchTokenAt (cs : List Char) : Option (List Char) :=
  if (cs.take 11).length == 11 && (cs.take 11).all isIdChar && cs.get? 11 == some ']' then
    some (cs.take 11)
  else
    none

/-- Left-to-right scan of `re.search` for the bracketed identifier pattern:
the first position whose opening bracket is followed by a full token wins. -/
def searchToken : List Char → Option (List Char)
  | [] => none
  | c :: rest =>
    if c == '[' then
      match matchTokenAt rest with
      | some t => some t
      | none => searchToken rest
    else searchToken rest

/-- `extract_video_id` from the scripts: strip the extension, then search the
base name for an 11-character bracketed token. -/
def extract_video_id (filename : String) : Option String :=
  (searchToken (splitext filename).1.data).map (fun t => String.mk t)

/-- A bracketed 11-character identifier token occurs in `cs` at position `i`:
the character at position `i` is an opening bracket, the next 11 characters
exist and are identifier characters, and the character after them is a
closing bracket. -/
def tokenAtB : List Char → Nat → Bool
  | [], _ => false
  | c :: rest, 0 =>
      (c == '[') && (rest.take 11).length == 11 && (rest.take 11).all isIdChar &&
        rest.get? 11 == some ']'
  | _ :: rest, i + 1 => tokenAtB rest i

/-- The 11 characters following position `i` (the token body at `i`). -/
def tokenChars : List Char → Nat → List Char
  | [], _ => []
  | _ :: rest, 0 => rest.take 11
  | _ :: rest, i + 1 => tokenChars rest i

/-- The token string occurring at position `i`. -/
def tokenStrAt (cs : List Char) (i : Nat) : String :=
  String.mk (tokenChars cs i)

/-- The `EXT_MAP` of `convert-media-files.py`: note that the media category
lists only `.mkv` and `.webm`, and there is no description category. -/
def extMapConvert : List (String × List String) :=
  [("media", [".mkv", ".webm"]),
   ("metadata", [".info.json"]),
   ("thumb", [".jpg", ".png", ".webp"]),
   ("subtitle", [".vtt"])]

/-- The `EXT_MAP` of `validate-media-files.py`, which also lists `.mp4` as a
media suffix and has a description category. -/
def extMapValidate : List (String × List String) :=
  [("media", [".mkv", ".webm", ".mp4"]),
   ("metadata", [".info.json"]),
   ("thumb", [".jpg", ".png", ".webp"]),
   ("subtitle", [".vtt"]),
   ("description", [".description"])]

/-- One grouped per-video record.  A Python `False` sentinel is modelled as
`none`; the subtitle entry is `False` or a list, hence `Option (List String)`.
The `video_id` field is always the extracted identifier string (records are
only ever created for files whose name yields an identifier). -/
structure VideoRecord where
  media : Option String
  metadata : Option String
  thumb : Option String
  subtitle : Option (List String)
  descriptionPath : Option String
  video_id : String
deriving DecidableEq

/-- The freshly initialized grouped record for an identifier. -/
def freshRecord (vid : String) : VideoRecord :=
  { media := none, metadata := none, thumb := none, subtitle := none,
    descriptionPath := none, video_id := vid }

/-- Store a categorized file path in a record: media/metadata/thumb (and the
validate script's description key) overwrite, subtitle appends. -/
def updateCat (rec : VideoRecord) (cat : String) (fullPath : String) : VideoRecord :=
  if cat == "media" then { rec with media := some fullPath }
  else if cat == "metadata" then { rec with metadata := some fullPath }
  else if cat == "thumb" then { rec with thumb := some fullPath }
  else if cat == "subtitle" then
    { rec with subtitle := some ((rec.subtitle.getD []) ++ [fullPath]) }
  else if cat == "description" then { rec with descriptionPath := some fullPath }
  else rec

/-- Apply every category of the extension table whose suffix list matches the
filename, in table order. -/
def applyCats (extMap : List (String × List String)) (rec : VideoRecord)
    (file fullPath : String) : VideoRecord :=
  extMap.foldl
    (fun r ce => if ce.2.any (fun ext => strEndsWith file ext) then updateCat r ce.1 fullPath else r)
    rec

/-- Insert one walked file into the grouped association list, keyed by the
extracted identifier; files without an identifier are ignored.  Records keep
dict insertion order. -/
def insertFile (extMap : List (String × List String)) (acc : List VideoRecord)
    (root file : String) : List VideoRecord :=
  match extract_video_id file with
  | none => acc
  | some vid =>
    let fullPath := joinPath root file
    if acc.any (fun r => r.video_id == vid) then
      acc.map (fun r => if r.video_id == vid then applyCats extMap r file fullPath else r)
    else
      acc ++ [applyCats extMap (freshRecord vid) file fullPath]

/-- `categorize_files`: the walked directory is given as a list of
(containing directory, filename) pairs in traversal order. -/
def categorize_files (extMap : List (String × List String))
    (walked : List (String × String)) : List VideoRecord :=
  walked.foldl (fun acc rf => insertFile extMap acc rf.1 rf.2) []

/-- The filter of `main` in `convert-media-files.py`: an item is processed
only if its media entry is set (`video_id` is always set in a record). -/
def usable (v : VideoRecord) : Bool :=
  v.media.isSome

/-- The list of items the conversion loop iterates over. -/
def usableItems (grouped : List VideoRecord) : List VideoRecord :=
  grouped.filter (fun v => usable v)

/-- The ids collected in `missing_videos` by `validate-media-files.py`:
every grouped record whose media entry is unset is reported there. -/
def validateMissing (grouped : List VideoRecord) : List String :=
  (grouped.filter (fun v => v.media.isNone)).map (fun v => v.video_id)

/-- One stream of a probed container, as reported by the external probe:
codec type, codec name and a string-to-string tag mapping. -/
structure MediaStream where
  codec_type : String
  codec_name : String
  tags : List (String × String)
deriving DecidableEq

/-- Lookup of a key in a tag mapping (Python dict access / `in` test). -/
def lookupTag (tags : List (String × String)) (k : String) : Option String :=
  match tags.find? (fun p => p.1 == k) with
  | some p => some p.2
  | none => none

/-- Errors a per-item pipeline step can raise, mirroring the Python
exceptions: ffprobe `CalledProcessError`, dict `KeyError`, ffmpeg
`CalledProcessError` on extraction, `RuntimeError` from the progress-driven
transcode, `TypeError` from `os.rename(False, ...)`, `OSError` from
rename, and a PIL image error. -/
inductive Err where
  | probe
  | keyError
  | subprocess
  | transcodeErr
  | typeError
  | osError
  | pilError
deriving DecidableEq

/-- The loop body of `get_mkv_thumb_stream`: iterate over the attachment
streams; when a stream's tags contain `mimetype`, the `filename` tag is read
unconditionally (a missing `filename` raises `KeyError`); a filename starting
with `cover` returns that attachment index and the filename's extension. -/
def mkvThumbGo : Nat → List MediaStream → Except Err (Option (Nat × String))
  | _, [] => Except.ok none
  | idx, s :: rest =>
    if (lookupTag s.tags "mimetype").isSome then
      match lookupTag s.tags "filename" with
      | none => Except.error Err.keyError
      | some fn =>
        if strStartsWith fn "cover" then Except.ok (some (idx, (splitext fn).2))
        else mkvThumbGo (idx + 1) rest
    else mkvThumbGo (idx + 1) rest

/-- `get_mkv_thumb_stream` applied to an already-probed stream list. -/
def get_mkv_thumb_stream (streams : List MediaStream) : Except Err (Option (Nat × String)) :=
  mkvThumbGo 0 (streams.filter (fun s => s.codec_type == "attachment"))

/-- `get_mp4_thumb_type` applied to an already-probed stream list: the codec
name of the first stream whose codec name is png or jpg. -/
def get_mp4_thumb_type (streams : List MediaStream) : Option String :=
  (streams.find? (fun s => s.codec_name == "png" || s.codec_name == "jpg")).map
    (fun s => s.codec_name)

/-- The output path computed by `dump_mpv_thumb`: Python
`media_file.rstrip(media_ext) + thumb_type`, where `thumb_type` is the cover
filename's extension (dot included). -/
def dump_mpv_thumb_path (media_file thumb_type : String) : String :=
  pyRstrip media_file (splitext media_file).2 ++ thumb_type

/-- The output path computed by `dump_mp4_thumb`: Python
`media_file.rstrip(ext) + "." + thumb_type`, where `thumb_type` is a codec
name (no dot). -/
def dump_mp4_thumb_path (media_file thumb_type : String) : String :=
  pyRstrip media_file (splitext media_file).2 ++ "." ++ thumb_type

/-- The sibling path the specification describes: the media path with its
extension replaced (same directory, same base name); `ext` carries the dot. -/
def spec_sibling_path (media_file ext : String) : String :=
  (splitext media_file).1 ++ ext

/-- A mimetype-tagged attachment stream lacking a filename tag: reading its
filename raises `KeyError`. -/
def badAttachment (s : MediaStream) : Bool :=
  (lookupTag s.tags "mimetype").isSome && (lookupTag s.tags "filename").isNone

/-- An attachment stream on which the cover scan stops: it has a mimetype
tag and either no filename tag (raising) or a cover filename (returning). -/
def triggerAttachment (s : MediaStream) : Bool :=
  (lookupTag s.tags "mimetype").isSome &&
    ((lookupTag s.tags "filename").isNone ||
      (match lookupTag s.tags "filename" with
       | some fn => strStartsWith fn "cover"
       | none => false))

/-- The earliest stream of `l` on which the scan stops is one that lacks the
filename tag. -/
def ExFirstBad (l : List MediaStream) : Prop :=
  ∃ i, (∃ s, l.get? i = some s ∧ badAttachment s = true) ∧
    ∀ j, j < i → ∀ t, l.get? j = some t → triggerAttachment t = false

/-- An attachment stream carrying a cover filename tag. -/
def coverStream : MediaStream :=
  { codec_type := "attachment", codec_name := "",
    tags := [("mimetype", "image/png"), ("filename", "cover.png")] }

/-- An attachment stream with a mimetype tag but no filename tag. -/
def filenameLessStream : MediaStream :=
  { codec_type := "attachment", codec_name := "", tags := [("mimetype", "image/jpeg")] }

/-- One observable side effect of the pipeline.  Subprocess invocations are
recorded when issued; `renameFile`/`removeFile` are recorded only when the
underlying operation succeeds.  The transcode effect carries the external
tool's success flag. -/
inductive Effect where
  | probeCall (path : String)
  | dumpAttachment (media out : String) (idx : Nat)
  | dumpThumbCopy (media out : String)
  | saveJpeg (src dst : String)
  | renameFile (src dst : String)
  | removeFile (path : String)
  | dumpSub (media out : String) (idx : Nat)
  | transcode (src dst : String) (ok : Bool)
deriving DecidableEq

/-- The external world: what ffprobe reports for a path (`none` is a
non-zero exit), which files exist on disk, and whether each external
operation succeeds.  `long2short` is the language-code table of the yt-dlp
helper (Python renders a `None` result as the string "None" inside the
f-string, so the modelled result is total), and `rootOf` is
`os.path.dirname(os.path.abspath(path))`. -/
structure Env where
  probe : String → Option (List MediaStream)
  fileExists : String → Bool
  pilOk : String → Bool
  dumpMp4Ok : String → String → Bool
  dumpSubOk : String → String → Bool
  transcodeOk : String → String → Bool
  renameOk : String → String → Bool
  long2short : String → String
  rootOf : String → String

/-- `extract_thumbnail`: prefer the grouped thumbnail, then an existing
sibling `.jpg`/`.png`, then container-specific extraction (mkv attachment
dump or mp4 stream copy); otherwise no thumbnail. -/
def extract_thumbnail (env : Env) (thumb : Option String) (media : String) :
    List Effect × Except Err (Option String) :=
  match thumb with
  | some p => ([], Except.ok (some p))
  | none =>
    let base := (splitext media).1
    let ext := (splitext media).2
    if env.fileExists (base ++ ".jpg") then ([], Except.ok (some (base ++ ".jpg")))
    else if env.fileExists (base ++ ".png") then ([], Except.ok (some (base ++ ".png")))
    else if ext == ".mkv" then
      match env.probe media with
      | none => ([Effect.probeCall media], Except.error Err.probe)
      | some streams =>
        match get_mkv_thumb_stream streams with
        | Except.error e => ([Effect.probeCall media], Except.error e)
        | Except.ok none => ([Effect.probeCall media], Except.ok none)
        | Except.ok (some (idx, ttype)) =>
          ([Effect.probeCall media,
            Effect.dumpAttachment media (dump_mpv_thumb_path media ttype) idx],
           Except.ok (some (dump_mpv_thumb_path media ttype)))
    else if ext == ".mp4" then
      match env.probe media with
      | none => ([Effect.probeCall media], Except.error Err.probe)
      | some streams =>
        match get_mp4_thumb_type streams with
        | none => ([Effect.probeCall media], Except.ok none)
        | some ttype =>
          if env.dumpMp4Ok media (dump_mp4_thumb_path media ttype) then
            ([Effect.probeCall media,
              Effect.dumpThumbCopy media (dump_mp4_thumb_path media ttype)],
             Except.ok (some (dump_mp4_thumb_path media ttype)))
          else
            ([Effect.probeCall media,
              Effect.dumpThumbCopy media (dump_mp4_thumb_path media ttype)],
             Except.error Err.subprocess)
    else ([], Except.ok none)

/-- The thumbnail-normalization block of the main loop: a non-jpg thumbnail
is decoded and saved as RGB JPEG and the source artifact removed; a jpg
thumbnail is renamed to the normalized name. -/
def mainNormalizeThumb (env : Env) (vid root : String) (thumbPath : Option String) :
    List Effect × Except Err Unit :=
  match thumbPath with
  | none => ([], Except.ok ())
  | some tp =>
    let newThumb := joinPath root ("[" ++ vid ++ "].jpg")
    if (splitext tp).2 == ".jpg" then
      if env.renameOk tp newThumb then ([Effect.renameFile tp newThumb], Except.ok ())
      else ([], Except.error Err.osError)
    else
      if env.pilOk tp then
        ([Effect.saveJpeg tp newThumb, Effect.removeFile tp], Except.ok ())
      else ([], Except.error Err.pilError)

/-- The subtitle block of the main loop: every stream with subtitle codec
type is dumped to `[<id>].<lang>.vtt`; a missing language tag raises
`KeyError`, a failing dump raises `CalledProcessError`. -/
def processSubs (env : Env) (vid media root : String) :
    Nat → List MediaStream → List Effect × Except Err Unit
  | _, [] => ([], Except.ok ())
  | idx, s :: rest =>
    if s.codec_type == "subtitle" then
      match lookupTag s.tags "language" with
      | none => ([], Except.error Err.keyError)
      | some lang =>
        let sp := joinPath root ("[" ++ vid ++ "]." ++ env.long2short lang ++ ".vtt")
        if env.dumpSubOk media sp then
          let r := processSubs env vid media root (idx + 1) rest
          (Effect.dumpSub media sp idx :: r.1, r.2)
        else ([Effect.dumpSub media sp idx], Except.error Err.subprocess)
    else processSubs env vid media root (idx + 1) rest

/-- `get_streams` as a pipeline stage. -/
def probeStage (env : Env) (media : String) : List Effect × Except Err (List MediaStream) :=
  match env.probe media with
  | none => ([Effect.probeCall media], Except.error Err.probe)
  | some streams => ([Effect.probeCall media], Except.ok streams)

/-- The stream-copy conversion stage; a non-zero exit raises. -/
def transcodeStage (env : Env) (src dst : String) : List Effect × Except Err Unit :=
  if env.transcodeOk src dst then ([Effect.transcode src dst true], Except.ok ())
  else ([Effect.transcode src dst false], Except.error Err.transcodeErr)

/-- The metadata rename stage: `os.rename(metadata, ...)` with a `False`
sentinel raises `TypeError`. -/
def renameMetaStage (env : Env) (meta : Option String) (root vid : String) :
    List Effect × Except Err Unit :=
  match meta with
  | none => ([], Except.error Err.typeError)
  | some mp =>
    let newMeta := joinPath root ("[" ++ vid ++ "].info.json")
    if env.renameOk mp newMeta then ([Effect.renameFile mp newMeta], Except.ok ())
    else ([], Except.error Err.osError)

/-- Sequence two effectful steps; a raised error short-circuits, keeping the
effects performed so far. -/
def bindE {α β : Type} (a : List Effect × Except Err α)
    (f : α → List Effect × Except Err β) : List Effect × Except Err β :=
  match a with
  | (tr, Except.error e) => (tr, Except.error e)
  | (tr, Except.ok x) => ((tr ++ (f x).1), (f x).2)

/-- Outcome of one item of the loop: skipped, completed, or aborted by an
uncaught exception. -/
inductive ItemOutcome where
  | done
  | skipped
  | raised (e : Err)
deriving DecidableEq

/-- The non-skip body of one loop iteration: extract and normalize the
thumbnail, dump subtitles, transcode to `[<id>].mp4`, rename the metadata
sidecar, and finally remove the original media file. -/
def itemPipeline (env : Env) (v : VideoRecord) (media : String) :
    List Effect × Except Err Unit :=
  bindE (extract_thumbnail env v.thumb media) (fun tp =>
  bindE (mainNormalizeThumb env v.video_id (env.rootOf media) tp) (fun _ =>
  bindE (probeStage env media) (fun streams =>
  bindE (processSubs env v.video_id media (env.rootOf media) 0 streams) (fun _ =>
  bindE (transcodeStage env media
      (joinPath (env.rootOf media) ("[" ++ v.video_id ++ "].mp4"))) (fun _ =>
  bindE (renameMetaStage env v.metadata (env.rootOf media) v.video_id) (fun _ =>
  ([Effect.removeFile media], Except.ok ())))))))

/-- One iteration of the conversion loop of `main`: skip items without media
or with a media path already ending in `.mp4`; otherwise run the pipeline,
an uncaught error becoming the item's raised outcome. -/
def processItem (env : Env) (v : VideoRecord) : List Effect × ItemOutcome :=
  match v.media with
  | none => ([], ItemOutcome.skipped)
  | some media =>
    if strEndsWith media ".mp4" then ([], ItemOutcome.skipped)
    else
      match (itemPipeline env v media).2 with
      | Except.ok _ => ((itemPipeline env v media).1, ItemOutcome.done)
      | Except.error e => ((itemPipeline env v media).1, ItemOutcome.raised e)

/-- Result of a whole batch: the effect trace, the per-item outcomes of the
items that ran, and the uncaught error that aborted the batch, if any. -/
structure BatchResult where
  trace : List Effect
  outcomes : List ItemOutcome
  aborted : Option Err
deriving DecidableEq

/-- The conversion loop: items run sequentially; the first uncaught per-item
error aborts the whole batch, leaving the remaining items unprocessed. -/
def runBatch (env : Env) : List VideoRecord → BatchResult
  | [] => { trace := [], outcomes := [], aborted := none }
  | v :: vs =>
    match processItem env v with
    | (tr, ItemOutcome.raised e) => { trace := tr, outcomes := [ItemOutcome.raised e], aborted := some e }
    | (tr, out) =>
      let r := runBatch env vs
      { trace := tr ++ r.trace, outcomes := out :: r.outcomes, aborted := r.aborted }

/-- `main` of `convert-media-files.py` on an existing input directory:
group the walked files, keep the usable items, and run the loop. -/
def mainRun (env : Env) (walked : List (String × String)) : BatchResult :=
  runBatch env (usableItems (categorize_files extMapConvert walked))

/-- Which external binaries exist on the host. -/
structure Host where
  ffmpegPresent : Bool
  ffprobePresent : Bool

/-- The `__main__` guard and `main`: the startup check looks only for the
transcode binary (`shutil.which("ffmpeg")`) and raises `FileNotFoundError`
(`none`) when it is absent; a missing probe binary makes every ffprobe
invocation fail instead.  Both confirmation prompts are assumed answered
with yes. -/
def runScript (h : Host) (env : Env) (walked : List (String × String)) : Option BatchResult :=
  if h.ffmpegPresent then
    some (mainRun (if h.ffprobePresent then env else { env with probe := fun _ => none }) walked)
  else none

/-- A benign environment: no streams, no sibling files, every external
operation succeeds. -/
def env0 : Env :=
  { probe := fun _ => some [], fileExists := fun _ => false, pilOk := fun _ => true,
    dumpMp4Ok := fun _ _ => true, dumpSubOk := fun _ _ => true,
    transcodeOk := fun _ _ => true, renameOk := fun _ _ => true,
    long2short := fun l => l, rootOf := fun _ => "d" }

/-- An environment in which probing the first walked media file fails. -/
def env1 : Env :=
  { env0 with probe := fun p => if p == "d/A [aaaaaaaaaaa].mkv" then none else some [] }

/-- A two-item walked directory: two mkv videos with metadata sidecars. -/
def walked1 : List (String × String) :=
  [("d", "A [aaaaaaaaaaa].mkv"), ("d", "A [aaaaaaaaaaa].info.json"),
   ("d", "B [bbbbbbbbbbb].mkv"), ("d", "B [bbbbbbbbbbb].info.json")]

/-- The grouped record of the first walked item of `walked1`. -/
def recA : VideoRecord :=
  { media := some "d/A [aaaaaaaaaaa].mkv", metadata := some "d/A [aaaaaaaaaaa].info.json",
    thumb := none, subtitle := none, descriptionPath := none, video_id := "aaaaaaaaaaa" }

/-- The grouped record of the second walked item of `walked1`. -/
def recB : VideoRecord :=
  { media := some "d/B [bbbbbbbbbbb].mkv", metadata := some "d/B [bbbbbbbbbbb].info.json",
    thumb := none, subtitle := none, descriptionPath := none, video_id := "bbbbbbbbbbb" }

/-- An mkv item whose cover attachment is named `cover.mkv`, making the
`rstrip`-computed dump path coincide with the media path, in an environment
whose transcode step fails. -/
def recC6 : VideoRecord :=
  { media := some "v [abcdefghij1].mkv", metadata := some "v [abcdefghij1].info.json",
    thumb := none, subtitle := none, descriptionPath := none, video_id := "abcdefghij1" }

/-- Environment for the crafted-cover scenario: the probe reports one
attachment tagged `mimetype` with filename `cover.mkv`, and the transcode
step fails. -/
def envC6 : Env :=
  { env0 with
    probe := fun _ => some
      [{ codec_type := "attachment", codec_name := "",
         tags := [("mimetype", "image/png"), ("filename", "cover.mkv")] }],
    transcodeOk := fun _ _ => false }

/-- An item with a media file but no metadata sidecar. -/
def v10 : VideoRecord :=
  { media := some "v [abcdefghij1].mkv", metadata := none, thumb := none,
    subtitle := none, descriptionPath := none, video_id := "abcdefghij1" }

example : splitext "Video [abcdefRU123].mkv" = ("Video [abcdefRU123]", ".mkv") := by decide
example : splitext "a..mkv" = ("a.", ".mkv") := by decide
example : splitext ".hidden" = (".hidden", "") := by decide
example : splitext "dir.x/file" = ("dir.x/file", "") := by decide
example : extract_video_id "Video [abcdefRU123].mkv" = some "abcdefRU123" := by decide
example : extract_video_id "Video [abcdefRU1234].mkv" = none := by decide
example : extract_video_id "x [abcdefghij1].info.json" = some "abcdefghij1" := by decide
example : pyRstrip "[abcdefghij1] mkv.mkv" ".mkv" = "[abcdefghij1] " := by decide
example : joinPath "d" "a.mkv" = "d/a.mkv" := by decide

/-- Shifting a token occurrence across a cons cell. -/
theorem tokenAtB_succ (c : Char) (cs : List Char) (i : Nat) :
    tokenAtB (c :: cs) (i + 1) = tokenAtB cs i := rfl

/-- A successful token match right after an opening bracket is a token
occurrence at the head of the list. -/
theorem tokenAtB_zero_of (c : Char) (cs : List Char) (hc : (c == '[') = true)
    (t : List Char) (hm : matchTokenAt cs = some t) : tokenAtB (c :: cs) 0 = true := by
  unfold matchTokenAt at hm
  split at hm
  · rename_i hcond
    simp only [Bool.and_eq_true] at hcond
    obtain ⟨⟨hL, hA⟩, hG⟩ := hcond
    simp only [tokenAtB]
    simp_all
  · cases hm

/-- A token occurrence at the head of a list yields an opening bracket and a
successful token match. -/
theorem tokenAtB_zero_true (c : Char) (cs : List Char) (h : tokenAtB (c :: cs) 0 = true) :
    (c == '[') = true ∧ (matchTokenAt cs).isSome = true := by
  simp only [tokenAtB, Bool.and_eq_true] at h
  obtain ⟨⟨⟨hc, hL⟩, hA⟩, hG⟩ := h
  refine ⟨hc, ?_⟩
  unfold matchTokenAt
  simp_all

theorem matchTokenAt_eq_some (cs t : List Char) (h : matchTokenAt cs = some t) :
    t = cs.take 11 := by
  unfold matchTokenAt at h
  split at h
  · exact (Option.some.inj h).symm
  · cases h

/-- The regex scan returns the token at the first matching position. -/
theorem searchToken_first (cs : List Char) (i : Nat)
    (h1 : tokenAtB cs i = true) (h2 : ∀ j, j < i → tokenAtB cs j = false) :
    searchToken cs = some (tokenChars cs i) := by
  induction cs generalizing i with
  | nil => simp [tokenAtB] at h1
  | cons c rest ih =>
    cases i with
    | zero =>
      obtain ⟨hc, hm⟩ := tokenAtB_zero_true c rest h1
      obtain ⟨t, ht⟩ := Option.isSome_iff_exists.mp hm
      have hteq : t = rest.take 11 := matchTokenAt_eq_some rest t ht
      subst hteq
      simp [searchToken, hc, ht, tokenChars]
    | succ k =>
      have h0 : tokenAtB (c :: rest) 0 = false := h2 0 (Nat.succ_pos k)
      have hk : tokenAtB rest k = true := by rw [← tokenAtB_succ c]; exact h1
      have hks : ∀ j, j < k → tokenAtB rest j = false := by
        intro j hj
        have hx := h2 (j + 1) (Nat.succ_lt_succ hj)
        rwa [tokenAtB_succ] at hx
      have hrec := ih k hk hks
      cases hc : (c == '[') with
      | false => simpa [searchToken, hc, tokenChars] using hrec
      | true =>
        cases hm : matchTokenAt rest with
        | some t =>
          rw [tokenAtB_zero_of c rest hc t hm] at h0
          cases h0
        | none => simpa [searchToken, hc, hm, tokenChars] using hrec

/-- The regex scan fails when no position carries a token. -/
theorem searchToken_none (cs : List Char) (h : ∀ j, tokenAtB cs j = false) :
    searchToken cs = none := by
  induction cs with
  | nil => rfl
  | cons c rest ih =>
    have h0 := h 0
    have hrest : ∀ j, tokenAtB rest j = false := by
      intro j
      have hx := h (j + 1)
      rwa [tokenAtB_succ] at hx
    cases hc : (c == '[') with
    | false => simpa [searchToken, hc] using ih hrest
    | true =>
      cases hm : matchTokenAt rest with
      | some t =>
        rw [tokenAtB_zero_of c rest hc t hm] at h0
        cases h0
      | none => simp [searchToken, hc, hm, ih hrest]

/-- Positions past the end of the string never carry a token. -/
theorem tokenAtB_oob : ∀ (cs : List Char) (i : Nat), cs.length ≤ i → tokenAtB cs i = false
  | [], _, _ => rfl
  | _ :: _, 0, h => by simp at h
  | _ :: rest, i + 1, h => tokenAtB_oob rest i (by simpa using h)

/-- C5: for every filename, with the extension stripped before matching, if an
11-character bracketed token drawn from the identifier alphabet occurs at the
earliest matching position `i` of the base name, identifier extraction returns
exactly that token; and if no position of the base name carries such a token,
extraction returns nothing. -/
theorem extract_video_id_spec (f : String) :
    (∀ i, tokenAtB (splitext f).1.data i = true →
      (∀ j, j < i → tokenAtB (splitext f).1.data j = false) →
      extract_video_id f = some (tokenStrAt (splitext f).1.data i))
    ∧ ((∀ j, j < (splitext f).1.data.length → tokenAtB (splitext f).1.data j = false) →
      extract_video_id f = none) := by
  constructor
  · intro i h1 h2
    unfold extract_video_id
    rw [searchToken_first _ i h1 h2]
    rfl
  · intro h
    unfold extract_video_id
    rw [searchToken_none]
    · rfl
    · intro j
      rcases lt_or_ge j (splitext f).1.data.length with hj | hj
      · exact h j hj
      · exact tokenAtB_oob _ j hj

/-- Witness for C5 at concrete filenames. -/
theorem extract_video_id_spec_witness :
    extract_video_id "Video [abcdefghij1].mkv" = some "abcdefghij1" ∧
    extract_video_id "plain.mkv" = none := by
  constructor
  · exact (extract_video_id_spec "Video [abcdefghij1].mkv").1 6 (by decide) (by decide)
  · exact (extract_video_id_spec "plain.mkv").2 (by decide)

example :
    categorize_files extMapConvert
      [("d", "A [abcdefghij1].mkv"), ("d", "A [abcdefghij1].info.json")] =
    [{ media := some "d/A [abcdefghij1].mkv", metadata := some "d/A [abcdefghij1].info.json",
       thumb := none, subtitle := none, descriptionPath := none,
       video_id := "abcdefghij1" }] := by decide

/-- C2 (code bug): the grouper of `convert-media-files.py` does not put a
`.mp4` file in the media category (its table lacks `.mp4`), while the grouper
of `validate-media-files.py`, matching the authoritative table, does. -/
theorem categorize_mp4_code_bug :
    categorize_files extMapConvert [("d", "Video [uvwxyzabc12].mp4")] =
      [{ media := none, metadata := none, thumb := none, subtitle := none,
         descriptionPath := none, video_id := "uvwxyzabc12" }] ∧
    categorize_files extMapValidate [("d", "Video [uvwxyzabc12].mp4")] =
      [{ media := some "d/Video [uvwxyzabc12].mp4", metadata := none, thumb := none,
         subtitle := none, descriptionPath := none, video_id := "uvwxyzabc12" }] := by
  constructor
  · rfl
  · rfl

/-- C4: a grouped item with a thumbnail or subtitle file but no media file is
never usable, is excluded from the conversion loop's item list, and its id is
reported in the missing list of `validate-media-files.py`. -/
theorem orphan_not_usable (grouped : List VideoRecord) (v : VideoRecord)
    (hmem : v ∈ grouped) (hm : v.media = none)
    (haux : v.thumb.isSome = true ∨ v.subtitle.getD [] ≠ []) :
    usable v = false ∧ v ∉ usableItems grouped ∧ v.video_id ∈ validateMissing grouped := by
  refine ⟨by simp [usable, hm], ?_, ?_⟩
  · intro hin
    have := (List.mem_filter.mp hin).2
    simp [usable, hm] at this
  · exact List.mem_map.mpr ⟨v, List.mem_filter.mpr ⟨hmem, by simp [hm]⟩, rfl⟩

/-- Witness for C4: a record with only a thumbnail file. -/
theorem orphan_not_usable_witness :
    usable { media := none, metadata := none, thumb := some "d/Clip [klmnopqrst1].jpg",
             subtitle := none, descriptionPath := none, video_id := "klmnopqrst1" } = false ∧
    ({ media := none, metadata := none, thumb := some "d/Clip [klmnopqrst1].jpg",
       subtitle := none, descriptionPath := none,
       video_id := "klmnopqrst1" } : VideoRecord) ∉
      usableItems [{ media := none, metadata := none, thumb := some "d/Clip [klmnopqrst1].jpg",
                     subtitle := none, descriptionPath := none, video_id := "klmnopqrst1" }] ∧
    "klmnopqrst1" ∈
      validateMissing [{ media := none, metadata := none,
                         thumb := some "d/Clip [klmnopqrst1].jpg", subtitle := none,
                         descriptionPath := none, video_id := "klmnopqrst1" }] :=
  orphan_not_usable _ _ (List.mem_singleton.mpr rfl) rfl (Or.inl rfl)

/-- C7 (code bug): `rstrip` removes a trailing character SET, not a suffix,
so when the base name ends in characters of the extension the computed dump
path loses part of the base name and differs from the specified sibling
path, in both the mkv and the mp4 branch. -/
theorem dump_thumb_path_code_bug :
    dump_mpv_thumb_path "[abcdefghij1] mkv.mkv" ".png" = "[abcdefghij1] .png" ∧
    spec_sibling_path "[abcdefghij1] mkv.mkv" ".png" = "[abcdefghij1] mkv.png" ∧
    dump_mpv_thumb_path "[abcdefghij1] mkv.mkv" ".png" ≠
      spec_sibling_path "[abcdefghij1] mkv.mkv" ".png" ∧
    dump_mp4_thumb_path "[abcdefghij1] 4.mp4" "png" = "[abcdefghij1] .png" ∧
    spec_sibling_path "[abcdefghij1] 4.mp4" ".png" = "[abcdefghij1] 4.png" ∧
    dump_mp4_thumb_path "[abcdefghij1] 4.mp4" "png" ≠
      spec_sibling_path "[abcdefghij1] 4.mp4" ".png" := by
  refine ⟨rfl, rfl, by decide, rfl, rfl, by decide⟩

theorem exFirstBad_cons (s : MediaStream) (rest : List MediaStream)
    (htrig : triggerAttachment s = false) :
    ExFirstBad (s :: rest) ↔ ExFirstBad rest := by
  constructor
  · rintro ⟨i, ⟨t, hget, hbad⟩, hfirst⟩
    cases i with
    | zero =>
      exfalso
      have hs : s = t := by simpa using hget
      rw [← hs] at hbad
      simp only [badAttachment, Bool.and_eq_true] at hbad
      obtain ⟨hm, hf⟩ := hbad
      simp [triggerAttachment, hm, hf] at htrig
    | succ k =>
      refine ⟨k, ⟨t, by simpa using hget, hbad⟩, ?_⟩
      intro j hj u hu
      exact hfirst (j + 1) (Nat.succ_lt_succ hj) u (by simpa using hu)
  · rintro ⟨i, ⟨t, hget, hbad⟩, hfirst⟩
    refine ⟨i + 1, ⟨t, by simpa using hget, hbad⟩, ?_⟩
    intro j hj u hu
    cases j with
    | zero =>
      have hs : s = u := by simpa using hu
      rw [← hs]
      exact htrig
    | succ m =>
      exact hfirst m (Nat.lt_of_succ_lt_succ hj) u (by simpa using hu)

/-- The attachment scan raises `KeyError` exactly when the earliest stream on
which it stops lacks the filename tag. -/
theorem mkvThumbGo_error_iff (n : Nat) (l : List MediaStream) :
    mkvThumbGo n l = Except.error Err.keyError ↔ ExFirstBad l := by
  induction l generalizing n with
  | nil => simp [mkvThumbGo, ExFirstBad]
  | cons s rest ih =>
    by_cases hm : (lookupTag s.tags "mimetype").isSome = true
    · cases hf : lookupTag s.tags "filename" with
      | none =>
        constructor
        · intro _
          exact ⟨0, ⟨s, rfl, by simp [badAttachment, hm, hf]⟩,
            fun j hj => absurd hj (Nat.not_lt_zero j)⟩
        · intro _
          simp [mkvThumbGo, hm, hf]
      | some fn =>
        cases hc : strStartsWith fn "cover" with
        | true =>
          have htrig : triggerAttachment s = true := by
            simp [triggerAttachment, hm, hf, hc]
          constructor
          · intro h
            simp [mkvThumbGo, hm, hf, hc] at h
          · rintro ⟨i, ⟨t, hget, hbad⟩, hfirst⟩
            exfalso
            cases i with
            | zero =>
              have hs : s = t := by simpa using hget
              rw [← hs] at hbad
              simp [badAttachment, hm, hf] at hbad
            | succ k =>
              have := hfirst 0 (Nat.succ_pos k) s rfl
              rw [htrig] at this
              cases this
        | false =>
          have htrig : triggerAttachment s = false := by
            simp [triggerAttachment, hm, hf, hc]
          have hstep : mkvThumbGo n (s :: rest) = mkvThumbGo (n + 1) rest := by
            simp [mkvThumbGo, hm, hf, hc]
          rw [hstep, exFirstBad_cons s rest htrig]
          exact ih (n + 1)
    · have hmB : (lookupTag s.tags "mimetype").isSome = false := by simpa using hm
      have htrig : triggerAttachment s = false := by simp [triggerAttachment, hmB]
      have hstep : mkvThumbGo n (s :: rest) = mkvThumbGo (n + 1) rest := by
        simp [mkvThumbGo, hmB]
      rw [hstep, exFirstBad_cons s rest htrig]
      exact ih (n + 1)

/-- C9 (amended): the cover lookup over a probed stream list raises `KeyError`
exactly when the earliest attachment stream on which the scan stops (a
mimetype-tagged attachment with either no filename tag or a cover filename)
is one lacking the filename tag; an earlier cover match returns first and no
`KeyError` is raised for later filename-less attachments. -/
theorem get_mkv_thumb_stream_keyerror (streams : List MediaStream) :
    get_mkv_thumb_stream streams = Except.error Err.keyError ↔
      ExFirstBad (streams.filter (fun s => s.codec_type == "attachment")) :=
  mkvThumbGo_error_iff 0 _

/-- Counterexample for C9 as stated: a stream list containing a
mimetype-tagged attachment without a filename tag on which the lookup does
NOT raise `KeyError`, because an earlier cover attachment returns first. -/
theorem get_mkv_thumb_stream_no_keyerror_counterexample :
    badAttachment filenameLessStream = true ∧
    filenameLessStream.codec_type = "attachment" ∧
    filenameLessStream ∈ [coverStream, filenameLessStream] ∧
    get_mkv_thumb_stream [coverStream, filenameLessStream] = Except.ok (some (0, ".png")) := by
  refine ⟨rfl, rfl, by simp, rfl⟩

/-- C3: an item whose media path already ends in `.mp4` is skipped: the loop
body performs no probe, extraction, transcode, rename or deletion (empty
effect trace) and reports the item as skipped. -/
theorem mp4_item_skipped (env : Env) (v : VideoRecord) (m : String)
    (hm : v.media = some m) (hmp4 : strEndsWith m ".mp4" = true) :
    processItem env v = ([], ItemOutcome.skipped) := by
  simp [processItem, hm, hmp4]

/-- Witness for C3 at a concrete already-normalized item. -/
theorem mp4_item_skipped_witness :
    processItem env0
      { media := some "d/Video [uvwxyzabc12].mp4", metadata := none, thumb := none,
        subtitle := none, descriptionPath := none, video_id := "uvwxyzabc12" } =
      ([], ItemOutcome.skipped) :=
  mp4_item_skipped env0 _ "d/Video [uvwxyzabc12].mp4" rfl (by decide)

/-- C1 (amended): there is no per-item error handling: the first uncaught
per-item error ends the batch with exactly that item's trace and outcome and
leaves every later item unprocessed; a batch that aborts nowhere processes
every item. -/
theorem first_item_error_aborts_batch (env : Env) (v : VideoRecord)
    (rest : List VideoRecord) (tr : List Effect) (e : Err)
    (h : processItem env v = (tr, ItemOutcome.raised e)) :
    runBatch env (v :: rest) =
      { trace := tr, outcomes := [ItemOutcome.raised e], aborted := some e } ∧
    ∀ (env2 : Env) (vs : List VideoRecord),
      (runBatch env2 vs).aborted = none →
      (runBatch env2 vs).outcomes.length = vs.length := by
  constructor
  · simp [runBatch, h]
  · intro env2 vs
    induction vs with
    | nil => intro _; rfl
    | cons w ws ih =>
      intro hab
      rcases hp : processItem env2 w with ⟨tw, ow⟩
      cases ow with
      | raised e2 => simp [runBatch, hp] at hab
      | done =>
        simp only [runBatch, hp] at hab ⊢
        simpa using ih hab
      | skipped =>
        simp only [runBatch, hp] at hab ⊢
        simpa using ih hab

/-- Witness for C1 (amended): a concrete two-item batch whose first item's
probe fails. -/
theorem first_item_error_aborts_batch_witness :
    runBatch env1 [recA, recB] =
      { trace := [Effect.probeCall "d/A [aaaaaaaaaaa].mkv"],
        outcomes := [ItemOutcome.raised Err.probe], aborted := some Err.probe } :=
  (first_item_error_aborts_batch env1 recA [recB] _ Err.probe rfl).1

/-- Counterexample for C1 as stated: with two usable items and a probe
failure on the first, the batch aborts with a single outcome instead of
recording the error and continuing with the second item. -/
theorem per_item_error_not_isolated_counterexample :
    (usableItems (categorize_files extMapConvert walked1)).length = 2 ∧
    (mainRun env1 walked1).outcomes = [ItemOutcome.raised Err.probe] ∧
    (mainRun env1 walked1).aborted = some Err.probe := by
  refine ⟨rfl, rfl, rfl⟩

/-- C8 (amended): the startup check aborts the run exactly when the
transcode binary is missing; the probe binary is not checked at startup. -/
theorem preflight_checks_only_ffmpeg (h : Host) (env : Env)
    (walked : List (String × String)) :
    runScript h env walked = none ↔ h.ffmpegPresent = false := by
  cases hf : h.ffmpegPresent <;> simp [runScript, hf]

/-- Counterexample for C8 as stated: with ffmpeg present and ffprobe absent
the run is not aborted at startup; the first item starts processing and its
probe failure aborts the batch mid-run. -/
theorem missing_ffprobe_not_preflight_counterexample :
    runScript { ffmpegPresent := true, ffprobePresent := false } env0 walked1 =
      some { trace := [Effect.probeCall "d/A [aaaaaaaaaaa].mkv"],
             outcomes := [ItemOutcome.raised Err.probe], aborted := some Err.probe } := by
  rfl

/-- C6 (code bug): with a crafted cover attachment named `cover.mkv`, the
extraction artifact path equals the media path, and thumbnail normalization
removes the file at the media path even though the transcode step then
fails; the original media file is deleted without the transcode and rename
steps having completed. -/
theorem media_removed_without_transcode_code_bug :
    processItem envC6 recC6 =
      ([Effect.probeCall "v [abcdefghij1].mkv",
        Effect.dumpAttachment "v [abcdefghij1].mkv" "v [abcdefghij1].mkv" 0,
        Effect.saveJpeg "v [abcdefghij1].mkv" "d/[abcdefghij1].jpg",
        Effect.removeFile "v [abcdefghij1].mkv",
        Effect.probeCall "v [abcdefghij1].mkv",
        Effect.transcode "v [abcdefghij1].mkv" "d/[abcdefghij1].mp4" false],
       ItemOutcome.raised Err.transcodeErr) ∧
    Effect.removeFile "v [abcdefghij1].mkv" ∈ (processItem envC6 recC6).1 ∧
    (processItem envC6 recC6).2 = ItemOutcome.raised Err.transcodeErr := by
  refine ⟨rfl, by decide, rfl⟩

/-- Effects in a sequenced trace come either from the first step or, when the
first step succeeded, from the continuation. -/
theorem bindE_trace_mem {α β : Type} (a : List Effect × Except Err α)
    (f : α → List Effect × Except Err β) (e : Effect)
    (h : e ∈ (bindE a f).1) : e ∈ a.1 ∨ ∃ x, a.2 = Except.ok x ∧ e ∈ (f x).1 := by
  rcases a with ⟨tr, r⟩
  cases r with
  | error err =>
    simp only [bindE] at h
    exact Or.inl h
  | ok x =>
    simp only [bindE] at h
    rcases List.mem_append.mp h with h | h
    · exact Or.inl h
    · exact Or.inr ⟨x, rfl, h⟩

/-- A sequenced step succeeds only if the first step succeeded. -/
theorem bindE_ok {α β : Type} (a : List Effect × Except Err α)
    (f : α → List Effect × Except Err β) (y : β)
    (h : (bindE a f).2 = Except.ok y) :
    ∃ x, a.2 = Except.ok x ∧ (f x).2 = Except.ok y := by
  rcases a with ⟨tr, r⟩
  cases r with
  | error err => simp [bindE] at h
  | ok x => exact ⟨x, rfl, by simpa [bindE] using h⟩

/-- Sequencing after a successful step continues with the continuation. -/
theorem bindE_snd_ok {α β : Type} (a : List Effect × Except Err α)
    (f : α → List Effect × Except Err β) (x : α)
    (h : a.2 = Except.ok x) : (bindE a f).2 = (f x).2 := by
  rcases a with ⟨tr, r⟩
  cases r with
  | error err => simp at h
  | ok y =>
    have hy : y = x := by simpa using h
    subst hy
    rfl

/-- Sequencing after a raised step keeps the error. -/
theorem bindE_snd_error {α β : Type} (a : List Effect × Except Err α)
    (f : α → List Effect × Except Err β) (e : Err)
    (h : a.2 = Except.error e) : (bindE a f).2 = Except.error e := by
  rcases a with ⟨tr, r⟩
  cases r with
  | error err =>
    have he : err = e := by simpa using h
    subst he
    rfl
  | ok y => simp at h

/-- Thumbnail extraction never invokes the transcoder. -/
theorem extract_thumbnail_no_transcode (env : Env) (th : Option String)
    (m a b : String) (c : Bool) :
    Effect.transcode a b c ∉ (extract_thumbnail env th m).1 := by
  intro h
  cases th with
  | some p => simp [extract_thumbnail] at h
  | none =>
    simp only [extract_thumbnail] at h
    repeat' split at h
    all_goals simp_all

/-- Thumbnail extraction never removes a file. -/
theorem extract_thumbnail_no_remove (env : Env) (th : Option String) (m p : String) :
    Effect.removeFile p ∉ (extract_thumbnail env th m).1 := by
  intro h
  cases th with
  | some q => simp [extract_thumbnail] at h
  | none =>
    simp only [extract_thumbnail] at h
    repeat' split at h
    all_goals simp_all

/-- Thumbnail normalization never invokes the transcoder. -/
theorem mainNormalizeThumb_no_transcode (env : Env) (vid root : String)
    (tp : Option String) (a b : String) (c : Bool) :
    Effect.transcode a b c ∉ (mainNormalizeThumb env vid root tp).1 := by
  intro h
  cases tp with
  | none => simp [mainNormalizeThumb] at h
  | some q =>
    simp only [mainNormalizeThumb] at h
    repeat' split at h
    all_goals simp_all

/-- The only file thumbnail normalization removes is the thumbnail artifact
itself. -/
theorem mainNormalizeThumb_remove (env : Env) (vid root : String)
    (tp : Option String) (p : String)
    (h : Effect.removeFile p ∈ (mainNormalizeThumb env vid root tp).1) :
    tp = some p := by
  cases tp with
  | none => simp [mainNormalizeThumb] at h
  | some q =>
    simp only [mainNormalizeThumb] at h
    repeat' split at h
    all_goals simp_all

/-- Subtitle extraction never invokes the transcoder. -/
theorem processSubs_no_transcode (env : Env) (vid m root a b : String) (c : Bool)
    (n : Nat) (l : List MediaStream) :
    Effect.transcode a b c ∉ (processSubs env vid m root n l).1 := by
  induction l generalizing n with
  | nil => simp [processSubs]
  | cons s rest ih =>
    intro h
    simp only [processSubs] at h
    repeat' split at h
    all_goals simp_all

/-- Subtitle extraction never removes a file. -/
theorem processSubs_no_remove (env : Env) (vid m root p : String)
    (n : Nat) (l : List MediaStream) :
    Effect.removeFile p ∉ (processSubs env vid m root n l).1 := by
  induction l generalizing n with
  | nil => simp [processSubs]
  | cons s rest ih =>
    intro h
    simp only [processSubs] at h
    repeat' split at h
    all_goals simp_all

/-- The probe stage emits exactly one probe call. -/
theorem probeStage_trace (env : Env) (m : String) :
    (probeStage env m).1 = [Effect.probeCall m] := by
  cases h : env.probe m <;> simp [probeStage, h]

/-- The transcode stage emits exactly one transcode invocation, flagged with
the external tool's success. -/
theorem transcodeStage_trace (env : Env) (src dst : String) :
    (transcodeStage env src dst).1 =
      [Effect.transcode src dst (env.transcodeOk src dst)] := by
  cases h : env.transcodeOk src dst <;> simp [transcodeStage, h]

/-- The trace and result of processing a non-skipped item are those of its
pipeline. -/
theorem processItem_run (env : Env) (v : VideoRecord) (media : String)
    (hm : v.media = some media) (hmp4 : strEndsWith media ".mp4" = false) :
    (processItem env v).1 = (itemPipeline env v media).1 ∧
    ((processItem env v).2 = ItemOutcome.done ↔
      (itemPipeline env v media).2 = Except.ok ()) ∧
    (∀ e, (itemPipeline env v media).2 = Except.error e →
      (processItem env v).2 = ItemOutcome.raised e) := by
  cases hq : (itemPipeline env v media).2 with
  | ok u =>
    cases u
    refine ⟨by simp [processItem, hm, hmp4, hq], by simp [processItem, hm, hmp4, hq], ?_⟩
    intro e he
    simp at he
  | error e0 =>
    refine ⟨by simp [processItem, hm, hmp4, hq], by simp [processItem, hm, hmp4, hq], ?_⟩
    intro e he
    have he0 : e0 = e := by simpa using he
    subst he0
    simp [processItem, hm, hmp4, hq]

/-- C10: an item selected for conversion whose record has no metadata
sidecar is usable (selection needs only a media file), yet its conversion
never completes: when the transcoded `[<id>].mp4` has been produced the
rename step raises `TypeError` on the `False` sentinel, and (provided the
thumbnail artifact path does not collide with the media path) the original
media file is never removed. -/
theorem conversion_requires_metadata (env : Env) (v : VideoRecord) (m : String)
    (hm : v.media = some m) (hmp4 : strEndsWith m ".mp4" = false)
    (hmeta : v.metadata = none)
    (hnc : (extract_thumbnail env v.thumb m).2 ≠ Except.ok (some m)) :
    usable v = true ∧
    (processItem env v).2 ≠ ItemOutcome.done ∧
    (∀ dst, Effect.transcode m dst true ∈ (processItem env v).1 →
      (processItem env v).2 = ItemOutcome.raised Err.typeError) ∧
    Effect.removeFile m ∉ (processItem env v).1 := by
  obtain ⟨hfst, hdone, hraise⟩ := processItem_run env v m hm hmp4
  have hrn : (renameMetaStage env v.metadata (env.rootOf m) v.video_id).2 =
      Except.error Err.typeError := by
    rw [hmeta]
    rfl
  refine ⟨by simp [usable, hm], ?_, ?_, ?_⟩
  · intro hd
    have hok : (itemPipeline env v m).2 = Except.ok () := hdone.mp hd
    simp only [itemPipeline] at hok
    obtain ⟨tp, h1, h2⟩ := bindE_ok _ _ _ hok
    obtain ⟨u2, h3, h4⟩ := bindE_ok _ _ _ h2
    obtain ⟨streams, h5, h6⟩ := bindE_ok _ _ _ h4
    obtain ⟨u4, h7, h8⟩ := bindE_ok _ _ _ h6
    obtain ⟨u5, h9, h10⟩ := bindE_ok _ _ _ h8
    obtain ⟨u6, h11, h12⟩ := bindE_ok _ _ _ h10
    rw [hrn] at h11
    cases h11
  · intro dst htr
    rw [hfst] at htr
    simp only [itemPipeline] at htr
    rcases bindE_trace_mem _ _ _ htr with h | ⟨tp, htp, h⟩
    · exact absurd h (extract_thumbnail_no_transcode env v.thumb m m dst true)
    rcases bindE_trace_mem _ _ _ h with h | ⟨u2, hu2, h⟩
    · exact absurd h (mainNormalizeThumb_no_transcode env v.video_id (env.rootOf m) tp m dst true)
    rcases bindE_trace_mem _ _ _ h with h | ⟨streams, hst, h⟩
    · rw [probeStage_trace] at h
      simp at h
    rcases bindE_trace_mem _ _ _ h with h | ⟨u4, hu4, h⟩
    · exact absurd h (processSubs_no_transcode env v.video_id m (env.rootOf m) m dst true 0 streams)
    rcases bindE_trace_mem _ _ _ h with h | ⟨u5, hu5, h⟩
    · rw [transcodeStage_trace] at h
      simp at h
      have htcok : (transcodeStage env m
          (joinPath (env.rootOf m) ("[" ++ v.video_id ++ "].mp4"))).2 = Except.ok () := by
        simp [transcodeStage, ← h.2]
      refine hraise Err.typeError ?_
      simp only [itemPipeline]
      rw [bindE_snd_ok _ _ _ htp, bindE_snd_ok _ _ _ hu2, bindE_snd_ok _ _ _ hst,
        bindE_snd_ok _ _ _ hu4, bindE_snd_ok _ _ _ htcok, bindE_snd_error _ _ _ hrn]
    · have htcok : (transcodeStage env m
          (joinPath (env.rootOf m) ("[" ++ v.video_id ++ "].mp4"))).2 = Except.ok () := by
        cases u5
        exact hu5
      refine hraise Err.typeError ?_
      simp only [itemPipeline]
      rw [bindE_snd_ok _ _ _ htp, bindE_snd_ok _ _ _ hu2, bindE_snd_ok _ _ _ hst,
        bindE_snd_ok _ _ _ hu4, bindE_snd_ok _ _ _ htcok, bindE_snd_error _ _ _ hrn]
  · intro hr
    rw [hfst] at hr
    simp only [itemPipeline] at hr
    rcases bindE_trace_mem _ _ _ hr with h | ⟨tp, htp, h⟩
    · exact absurd h (extract_thumbnail_no_remove env v.thumb m m)
    rcases bindE_trace_mem _ _ _ h with h | ⟨u2, hu2, h⟩
    · have hcol := mainNormalizeThumb_remove env v.video_id (env.rootOf m) tp m h
      rw [hcol] at htp
      exact hnc htp
    rcases bindE_trace_mem _ _ _ h with h | ⟨streams, hst, h⟩
    · rw [probeStage_trace] at h
      simp at h
    rcases bindE_trace_mem _ _ _ h with h | ⟨u4, hu4, h⟩
    · exact absurd h (processSubs_no_remove env v.video_id m (env.rootOf m) m 0 streams)
    rcases bindE_trace_mem _ _ _ h with h | ⟨u5, hu5, h⟩
    · rw [transcodeStage_trace] at h
      simp at h
    rcases bindE_trace_mem _ _ _ h with h | ⟨u6, hu6, h⟩
    · rw [hmeta] at h
      simp [renameMetaStage] at h
    · rw [hmeta] at hu6
      simp [renameMetaStage] at hu6

/-- Witness for C10: in the benign environment, the metadata-less item is
usable, the transcode to `[abcdefghij1].mp4` happens, the rename raises
`TypeError`, and the original media file is not removed. -/
theorem conversion_requires_metadata_witness :
    usable v10 = true ∧
    (processItem env0 v10).2 ≠ ItemOutcome.done ∧
    Effect.transcode "v [abcdefghij1].mkv" "d/[abcdefghij1].mp4" true ∈
      (processItem env0 v10).1 ∧
    (processItem env0 v10).2 = ItemOutcome.raised Err.typeError ∧
    Effect.removeFile "v [abcdefghij1].mkv" ∉ (processItem env0 v10).1 := by
  have hnc10 : (extract_thumbnail env0 v10.thumb "v [abcdefghij1].mkv").2 ≠
      Except.ok (some "v [abcdefghij1].mkv") := by
    have heval : (extract_thumbnail env0 v10.thumb "v [abcdefghij1].mkv").2 =
        Except.ok (none : Option String) := rfl
    rw [heval]
    intro hcon
    exact Option.noConfusion (Except.ok.inj hcon)
  have h := conversion_requires_metadata env0 v10 "v [abcdefghij1].mkv" rfl (by decide)
    rfl hnc10
  exact ⟨h.1, h.2.1, by decide, h.2.2.1 "d/[abcdefghij1].mp4" (by decide), h.2.2.2⟩

end TaScripts
